import Mathlib

/-!
Verification of the commit-message generation feature (context assembly
pipeline) of this repository.  The TypeScript sources
(`GitExtensionService`, `CommitMessageProvider`) are embedded shallowly:

* JavaScript strings are modelled as Lean `String` (char-level where the
  source manipulates code units);
* external processes (git) and the ignore-rule evaluator are modelled as
  oracle functions returning `Except` (an `error` result models a thrown
  exception, an `ok` result a normal return);
* `try`/`catch` blocks become `match` on those `Except` values;
* mutable fields of the provider object become explicit state records.
-/

/-! ## Basic string machinery (models of the JavaScript primitives used) -/

/-- The backtick character (spelled via its code point). -/
def btick : Char := Char.ofNat 96

/-- The single-quote character (spelled via its code point). -/
def squote : Char := Char.ofNat 39

/-- Characters removed by JavaScript `String.prototype.trim`
(the ASCII whitespace actually occurring in this pipeline). -/
def isJsWs (c : Char) : Bool :=
  c = ' ' || c = '\t' || c = '\n' || c = '\r' || c = Char.ofNat 11 || c = Char.ofNat 12

/-- Model of JavaScript `trim` at the character-list level:
drop whitespace from both ends. -/
def jsTrim (l : List Char) : List Char :=
  ((l.dropWhile isJsWs).reverse.dropWhile isJsWs).reverse

/-- Model of JavaScript `String.prototype.trim`. -/
def strTrim (s : String) : String := String.mk (jsTrim s.data)

/-- Model of JavaScript `split("\n")`: cut the character list at every
newline (an empty input yields one empty chunk, like in JavaScript). -/
def splitNewlinesL (l : List Char) : List (List Char) :=
  l.foldr (fun c acc => if c = '\n' then [] :: acc else (c :: acc.headD []) :: acc.tail) [[]]

/-- Model of JavaScript `split("\n")` on strings. -/
def splitNewlines (s : String) : List String :=
  (splitNewlinesL s.data).map String.mk

/-- Model of JavaScript `Array.prototype.join(sep)`. -/
def joinWith (sep : String) : List String → String
  | [] => ""
  | x :: xs => xs.foldl (fun acc y => acc ++ sep ++ y) x

/-- Substring containment (the property "`pat` occurs somewhere in `s`"). -/
def HasSubstr (s pat : String) : Prop := pat.data <:+: s.data

instance (s pat : String) : Decidable (HasSubstr s pat) :=
  List.decidableInfix pat.data s.data

/-! ## Data model (`types.ts`) -/

/-- Model of `GitChange` from `types.ts`: one changed file. -/
structure GitChange where
  filePath : String
  status : String
deriving DecidableEq, Repr

/-- Oracle environment for one `GitExtensionService` instance: the git
process (`spawnGitWithArgs`, which throws on launch failure or non-zero
exit) and the ignore-rule evaluator (`RooIgnoreController.validateAccess`,
which may also throw).  An `Except.error` result models a thrown
exception. -/
structure GitEnv where
  runGit : List String → Except String String
  validateAccess : String → Except String Bool

/-! ## Path helpers (models of node `path.join` / `path.relative`
as used on the workspace-relative paths of this pipeline) -/

/-- Model of `path.join(root, rel)`. -/
def pathJoin (a b : String) : String := a ++ "/" ++ b

/-- Model of `path.relative(base, p)` for the uses in this pipeline:
strip the base directory prefix. -/
def pathRelative (base p : String) : String :=
  let b := (base ++ "/").data
  if b.isPrefixOf p.data then String.mk (p.data.drop b.length) else p

/-! ## `GitExtensionService` -/

/-- Argument template of `getStatus`. -/
def nameStatusArgs (staged : Bool) : List String :=
  if staged then ["diff", "--name-status", "--cached"] else ["diff", "--name-status"]

/-- Argument template of the changed-file-name list in `getDiffForChanges`. -/
def nameOnlyArgs (staged : Bool) : List String :=
  if staged then ["diff", "--name-only", "--cached"] else ["diff", "--name-only"]

/-- Argument template of `getSummary`. -/
def statArgs (staged : Bool) : List String :=
  if staged then ["diff", "--cached", "--stat"] else ["diff", "--stat"]

/-- Argument template of `getGitDiff` (single-file diff). -/
def diffFileArgs (staged : Bool) (filePath : String) : List String :=
  if staged then ["diff", "--cached", "--", filePath] else ["diff", "--", filePath]

/-- Argument template of `getCurrentBranch`. -/
def branchArgs : List String := ["branch", "--show-current"]

/-- Argument template of `getRecentCommits` (default count 5). -/
def logArgs : List String := ["log", "--oneline", "-5"]

/-- Embedding of `getChangeStatusFromCode`: the fixed status-letter table. -/
def getChangeStatusFromCode (code : String) : String :=
  match code with
  | "M" => "Modified"
  | "A" => "Added"
  | "D" => "Deleted"
  | "R" => "Renamed"
  | "C" => "Copied"
  | "U" => "Updated"
  | "?" => "Untracked"
  | _ => "Unknown"

/-- The `for (const line of lines)` loop body of `gatherChanges`:
skip lines shorter than two characters, otherwise emit one `GitChange`
from `line.substring(0,1).trim()` and `line.substring(1).trim()`. -/
def parseStatusLines (workspaceRoot : String) : List String → List GitChange
  | [] => []
  | line :: rest =>
    if line.length < 2 then parseStatusLines workspaceRoot rest
    else
      { filePath := pathJoin workspaceRoot (strTrim (String.mk (line.data.drop 1))),
        status := getChangeStatusFromCode (strTrim (String.mk (line.data.take 1))) }
        :: parseStatusLines workspaceRoot rest

/-- Embedding of `gatherChanges`: run the status query, return `[]` on blank output or
on any thrown error, otherwise parse each non-blank line. -/
def gatherChanges (env : GitEnv) (workspaceRoot : String) (staged : Bool) : List GitChange :=
  match env.runGit (nameStatusArgs staged) with
  | .error _ => []
  | .ok statusOutput =>
    if strTrim statusOutput = "" then []
    else
      let lines := (splitNewlines statusOutput).filter (fun l => strTrim l ≠ "")
      parseStatusLines workspaceRoot lines

/-- Modelled from the spec: `shouldExcludeLockFile` (`exclusionUtils.ts` is
not among the provided sources).  Per the spec it name-matches a fixed set
of well-known lockfile basenames, case-sensitive exact match. -/
def lockFileNames : List String :=
  ["package-lock.json", "yarn.lock", "pnpm-lock.yaml", "bun.lockb",
   "Cargo.lock", "composer.lock", "Gemfile.lock", "poetry.lock"]

/-- Modelled from the spec: the basename of a path (text after the last
slash). -/
def baseName (p : String) : String :=
  String.mk ((p.data.reverse.takeWhile (fun c => c ≠ '/')).reverse)

/-- Modelled from the spec: lockfile exclusion by exact basename match. -/
def shouldExcludeLockFile (p : String) : Bool :=
  decide (baseName p ∈ lockFileNames)

/-- The per-file access check of `getDiffForChanges`: ask the ignore-rule
evaluator about `path.relative(root, path.join(root, file))`; if the
evaluator throws, log a warning and default to allowed (fail-open). -/
def fileAllowed (env : GitEnv) (workspaceRoot filePath : String) : Bool :=
  match env.validateAccess (pathRelative workspaceRoot (pathJoin workspaceRoot filePath)) with
  | .ok b => b
  | .error _ => true

/-- The file loop of `getDiffForChanges`: for each kept file fetch its
single-file diff and collect it (trimmed).  A thrown single-file diff
error propagates out of the loop (there is no per-file catch around
`getGitDiff`). -/
def collectDiffs (env : GitEnv) (workspaceRoot : String) (staged : Bool) :
    List String → Except String (List String)
  | [] => .ok []
  | f :: fs =>
    if fileAllowed env workspaceRoot f && !shouldExcludeLockFile f then
      match env.runGit (diffFileArgs staged f) with
      | .error e => .error e
      | .ok d =>
        match collectDiffs env workspaceRoot staged fs with
        | .error e => .error e
        | .ok rest => .ok (strTrim d :: rest)
    else collectDiffs env workspaceRoot staged fs

/-- The changed-file-name list computed at the top of `getDiffForChanges`. -/
def diffFileList (out : String) : List String :=
  ((splitNewlines out).map strTrim).filter (fun l => 0 < l.length)

/-- Embedding of `getDiffForChanges`: list the changed file names, filter, fetch each
file diff, join with newlines; the surrounding `try`/`catch` converts any
thrown error (including a single-file diff failure) into `""`.
The cosmetic `onProgress` callback is omitted. -/
def getDiffForChanges (env : GitEnv) (workspaceRoot : String) (staged : Bool) : String :=
  match env.runGit (nameOnlyArgs staged) with
  | .error _ => ""
  | .ok out =>
    match collectDiffs env workspaceRoot staged (diffFileList out) with
    | .error _ => ""
    | .ok diffs => joinWith "\n" diffs

/-- The diff section of `getCommitContext` (its inner `try` can only take
the catch branch if `getDiffForChanges` throws, which it never does). -/
def diffSection (env : GitEnv) (workspaceRoot : String) (staged : Bool) : String :=
  let changeType := if staged then "Staged" else "Unstaged"
  "### Full Diff of " ++ changeType ++ " Changes\n```diff\n"
    ++ getDiffForChanges env workspaceRoot staged ++ "\n```\n\n"

/-- The statistical-summary section of `getCommitContext`. -/
def summarySection (env : GitEnv) (staged : Bool) : String :=
  match env.runGit (statArgs staged) with
  | .ok summary => "### Statistical Summary\n```\n" ++ summary ++ "\n```\n\n"
  | .error _ => "### Statistical Summary\n```\n(No summary available)\n```\n\n"

/-- The current-branch fragment of `getCommitContext`: skipped entirely
when the adapter call fails or returns an empty (falsy) string. -/
def branchSection (env : GitEnv) : String :=
  match env.runGit branchArgs with
  | .ok currentBranch =>
    if currentBranch ≠ "" then
      "**Current branch:** `" ++ strTrim currentBranch ++ "`\n\n"
    else ""
  | .error _ => ""

/-- The recent-commits fragment of `getCommitContext`: skipped entirely
when the adapter call fails or returns an empty (falsy) string. -/
def commitsSection (env : GitEnv) : String :=
  match env.runGit logArgs with
  | .ok recentCommits =>
    if recentCommits ≠ "" then
      "**Recent commits:**\n```\n" ++ recentCommits ++ "\n```\n"
    else ""
  | .error _ => ""

/-- Embedding of `getCommitContext`: concatenation of the fixed header and the four
sections.  Every call site inside catches its own errors, so the outer
`catch` (the fixed "Error generating commit context" notice) is
unreachable and the function is total. -/
def getCommitContext (env : GitEnv) (workspaceRoot : String) (staged : Bool) : String :=
  "## Git Context for Commit Message Generation\n\n"
    ++ diffSection env workspaceRoot staged
    ++ summarySection env staged
    ++ "### Repository Context\n\n"
    ++ branchSection env
    ++ commitsSection env

/-! ## `CommitMessageProvider.extractCommitMessage` -/

/-- Is the character one of the three quote or backtick characters
matched by the quote-stripping regex of `extractCommitMessage`? -/
def isQuoteChar (c : Char) : Bool := c = '"' || c = squote || c = btick

/-- After a matched triple backtick, the regex alternative
`` ```[a-z]*\n `` additionally consumes a lowercase run followed by a
newline; when no newline follows the run, only the bare backticks were
matched and nothing more is consumed. -/
def afterFence (l : List Char) : List Char :=
  let r := l.dropWhile (fun c => 'a' ≤ c && c ≤ 'z')
  if r.take 1 = ['\n'] then r.drop 1 else l

/-- One pass of the global regex replace
`` replace(/```[a-z]*\n|```/g, "") ``, fuel-indexed so that every
recursion is structural (the fuel is always at least the list length). -/
def rcbmAux : Nat → List Char → List Char
  | 0, l => l
  | _ + 1, [] => []
  | fuel + 1, c :: rest =>
    if c = btick ∧ rest.take 2 = [btick, btick] then
      rcbmAux fuel (afterFence (rest.drop 2))
    else
      c :: rcbmAux fuel rest

/-- Model of `` cleaned.replace(/```[a-z]*\n|```/g, "") ``: remove every
code-fence marker occurrence, scanning left to right. -/
def removeCodeBlockMarkers (l : List Char) : List Char := rcbmAux l.length l

/-- Model of the leading half of the quote-stripping replace:
strip at most one leading quote/backtick. -/
def stripLeadingQuote : List Char → List Char
  | [] => []
  | c :: rest => if isQuoteChar c then rest else c :: rest

/-- Model of the trailing half of the quote-stripping replace:
strip at most one trailing quote/backtick. -/
def stripTrailingQuote (l : List Char) : List Char :=
  (stripLeadingQuote l.reverse).reverse

/-- Embedding of `extractCommitMessage`: trim, remove code-fence markers (global
replace), strip one leading and one trailing quote/backtick, trim again. -/
def extractCommitMessage (response : String) : String :=
  let cleaned := jsTrim response.data
  let withoutCodeBlocks := removeCodeBlockMarkers cleaned
  let withoutQuotes := stripTrailingQuote (stripLeadingQuote withoutCodeBlocks)
  String.mk (jsTrim withoutQuotes)

/-! ## `CommitMessageProvider` prompt building

The `supportPrompt` template engine (`shared/support-prompt`) is not among
the provided sources.  Modelled from the spec: a template is a sequence of
literal pieces and placeholders, and `supportPrompt.create` renders the
selected template by substituting the `gitContext` and
`customInstructions` parameters into the placeholders. -/

/-- Modelled from the spec: one piece of a support-prompt template. -/
inductive PromptPiece where
  | lit (s : String)
  | gitContext
  | customInstructions
deriving DecidableEq, Repr

/-- Modelled from the spec: a support-prompt template. -/
abbrev Template : Type := List PromptPiece

/-- Modelled from the spec: render a template with the given parameters
(the substitution performed by `supportPrompt.create`). -/
def renderTemplate (t : Template) (gitCtx customInstr : String) : String :=
  t.foldr
    (fun p acc =>
      (match p with
       | .lit s => s
       | .gitContext => gitCtx
       | .customInstructions => customInstr) ++ acc)
    ""

/-- The literal prefix directive prepended by `buildCommitMessagePrompt`
when a different message is requested for the same changes; it embeds the
previous message verbatim. -/
def differDirective (previousCommitMessage : String) : String :=
  "# CRITICAL INSTRUCTION: GENERATE A COMPLETELY DIFFERENT COMMIT MESSAGE\nThe user has requested a new commit message for the same changes.\nThe previous message was: \"" ++ previousCommitMessage
    ++ "\"\nYOU MUST create a message that is COMPLETELY DIFFERENT by:\n- Using entirely different wording and phrasing\n- Focusing on different aspects of the changes\n- Using a different structure or format if appropriate\n- Possibly using a different type or scope if justifiable\nThis is the MOST IMPORTANT requirement for this task.\n\n"

/-- The literal trailing reminder appended by `buildCommitMessagePrompt`;
it embeds the previous message verbatim. -/
def differReminder (previousCommitMessage : String) : String :=
  "\n\nFINAL REMINDER: Your message MUST be COMPLETELY DIFFERENT from the previous message: \""
    ++ previousCommitMessage ++ "\". This is a critical requirement."

/-- The orchestrator-held session fields `previousGitContext` and
`previousCommitMessage` of `CommitMessageProvider`. -/
structure SessionState where
  previousGitContext : Option String
  previousCommitMessage : Option String
deriving DecidableEq, Repr

/-- Embedding of `buildCommitMessagePrompt`: when the newly built context document
equals the stored previous one and a previous message exists, render the
base template wrapped in the differ directive and reminder; otherwise
render the unmodified base template. -/
def buildCommitMessagePrompt (st : SessionState) (baseTemplate : Template)
    (gitContextString customInstructions : String) : String :=
  if st.previousGitContext = some gitContextString then
    match st.previousCommitMessage with
    | some prev =>
      renderTemplate
        (PromptPiece.lit (differDirective prev) :: baseTemplate ++ [PromptPiece.lit (differReminder prev)])
        gitContextString customInstructions
    | none => renderTemplate baseTemplate gitContextString customInstructions
  else renderTemplate baseTemplate gitContextString customInstructions

/-! ## `CommitMessageProvider` workflow -/

/-- Oracle environment for the provider workflow: the `gatherChanges`
capability of the git service, the context builder, and the opaque
completion capability (`singleCompletionHandler`); an `error` models a
thrown exception / rejected promise. -/
structure ProviderEnv where
  gather : Bool → Except String (List GitChange)
  buildContext : List GitChange → Bool → Except String String
  complete : String → Except String String

/-- Embedding of `gatherGitChanges` (service management aside, see `ensureGitService`):
call `gatherChanges` with `staged := true`; if and only if that returns an
empty list, call once more with `staged := false`.  The second component
records the `staged` flags of the calls actually made, in order. -/
def gatherGitChangesT (env : ProviderEnv) :
    Except String (List GitChange × Bool) × List Bool :=
  match env.gather true with
  | .error e => (.error e, [true])
  | .ok changes =>
    if changes.isEmpty then
      match env.gather false with
      | .error e => (.error e, [true, false])
      | .ok changes2 => (.ok (changes2, false), [true, false])
    else (.ok (changes, true), [true])

/-- Embedding of `callAIForCommitMessage`: build the prompt from the session state,
invoke the completion capability, post-process the response. -/
def callAIForCommitMessage (env : ProviderEnv) (st : SessionState)
    (baseTemplate : Template) (customInstructions gitContextString : String) :
    Except String String :=
  match env.complete (buildCommitMessagePrompt st baseTemplate gitContextString customInstructions) with
  | .error e => .error e
  | .ok response => .ok (extractCommitMessage response)

/-- The structured result returned by `generateCommitMessageForExternal`. -/
structure GenResult where
  message : String
  error : Option String
deriving DecidableEq, Repr

/-- Embedding of `generateCommitMessageForExternal`: the programmatic workflow.  The
surrounding `try`/`catch` converts any thrown error into
`{message := "", error := message}`; the previous-run fields are assigned
only after the completion capability has returned. -/
def generateCommitMessageForExternal (env : ProviderEnv) (st : SessionState)
    (baseTemplate : Template) (customInstructions : String) :
    GenResult × SessionState :=
  match (gatherGitChangesT env).1 with
  | .error e => ({ message := "", error := some e }, st)
  | .ok (changes, staged) =>
    if changes.isEmpty then
      ({ message := "", error := some "No changes found to generate commit message" }, st)
    else
      match env.buildContext changes staged with
      | .error e => ({ message := "", error := some e }, st)
      | .ok gitContextString =>
        match callAIForCommitMessage env st baseTemplate customInstructions gitContextString with
        | .error e => ({ message := "", error := some e }, st)
        | .ok generatedMessage =>
          ({ message := generatedMessage, error := none },
           { previousGitContext := some gitContextString,
             previousCommitMessage := some generatedMessage })

/-- Observable outcome of one `generateCommitMessageVsCode` run: the
message delivered to the commit input box (if any) and the error shown to
the user (if any). -/
structure VsResult where
  delivered : Option String
  errorShown : Option String
deriving DecidableEq, Repr

/-- Embedding of `generateCommitMessageVsCode` (the interactive path, progress
reporting and telemetry omitted): same pipeline, but an empty change set
only shows a notice, and the catch block shows the error instead of
returning it.  The previous-run fields are assigned only after the
completion capability has returned. -/
def generateCommitMessageVsCode (env : ProviderEnv) (st : SessionState)
    (baseTemplate : Template) (customInstructions : String) :
    VsResult × SessionState :=
  match (gatherGitChangesT env).1 with
  | .error e => ({ delivered := none, errorShown := some e }, st)
  | .ok (changes, staged) =>
    if changes.isEmpty then ({ delivered := none, errorShown := none }, st)
    else
      match env.buildContext changes staged with
      | .error e => ({ delivered := none, errorShown := some e }, st)
      | .ok gitContextString =>
        match callAIForCommitMessage env st baseTemplate customInstructions gitContextString with
        | .error e => ({ delivered := none, errorShown := some e }, st)
        | .ok generatedMessage =>
          ({ delivered := some generatedMessage, errorShown := none },
           { previousGitContext := some gitContextString,
             previousCommitMessage := some generatedMessage })

/-! ## Git-service lifecycle (`gatherGitChanges` lines 359-363, `dispose`) -/

/-- Model of one `GitExtensionService` instance: it is constructed with a
workspace root that no code ever reassigns (the record is immutable). -/
structure GitServiceInst where
  workspaceRoot : String
deriving DecidableEq, Repr

/-- Observable lifecycle events of service management. -/
inductive SvcEvent where
  | disposed (root : String)
  | created (root : String)
deriving DecidableEq, Repr

/-- The service-management fields of `CommitMessageProvider`. -/
structure SvcState where
  currentWorkspaceRoot : Option String
  gitService : Option GitServiceInst
deriving DecidableEq, Repr

/-- The head of `gatherGitChanges`: when asked about a workspace path
different from the bound one, dispose the old service (if any) and then
construct a new instance bound to the new root; otherwise keep the
current instance.  Returns the new state and the lifecycle events in
order. -/
def ensureGitService (st : SvcState) (workspacePath : String) :
    SvcState × List SvcEvent :=
  if st.currentWorkspaceRoot ≠ some workspacePath then
    let disposeEvents :=
      match st.gitService with
      | some s => [SvcEvent.disposed s.workspaceRoot]
      | none => []
    ({ currentWorkspaceRoot := some workspacePath,
       gitService := some { workspaceRoot := workspacePath } },
     disposeEvents ++ [SvcEvent.created workspacePath])
  else (st, [])

/-! ## Concrete environments and predicates used by the theorems -/

/-- Three backticks: the code-fence marker. -/
def tripleFence : List Char := [btick, btick, btick]

/-- Does the list start with a quote/backtick character? -/
def headIsQuote (l : List Char) : Bool :=
  match l with
  | [] => false
  | c :: _ => isQuoteChar c

/-- An already-clean message in the sense of the spec: trimmed, containing
no code-fence marker, and not starting or ending with a quote/backtick
character. -/
abbrev CleanMessage (m : String) : Prop :=
  jsTrim m.data = m.data ∧ ¬ (tripleFence <:+: m.data)
    ∧ headIsQuote m.data = false ∧ headIsQuote m.data.reverse = false

/-- An adapter environment whose every call throws. -/
def envAllFail : GitEnv :=
  { runGit := fun _ => .error "boom", validateAccess := fun _ => .error "boom" }

/-- An adapter environment with two changed files where the single-file
diff of the second one exits non-zero. -/
def envOneDiffFails : GitEnv :=
  { runGit := fun args =>
      if args = nameOnlyArgs true then .ok "a.ts\nb.ts"
      else if args = diffFileArgs true "a.ts" then .ok "diff-of-a"
      else if args = diffFileArgs true "b.ts" then .error "git exited 1"
      else .ok ""
  , validateAccess := fun _ => .ok true }

/-- An adapter environment with a fixed staged status output. -/
def envStatusSample : GitEnv :=
  { runGit := fun args =>
      if args = nameStatusArgs true then .ok "M a.ts\nX\n \n? b.txt"
      else .error "unused"
  , validateAccess := fun _ => .ok true }

/-- An adapter environment whose ignore-rule evaluator always throws but
whose single-file diff succeeds. -/
def envEvalThrows : GitEnv :=
  { runGit := fun args =>
      if args = diffFileArgs true "a.ts" then .ok " D8 " else .ok ""
  , validateAccess := fun _ => .error "evaluator boom" }

/-- A provider environment in which both the staged and the unstaged
gather calls return an empty change list. -/
def envNoChanges : ProviderEnv :=
  { gather := fun _ => .ok []
  , buildContext := fun _ _ => .ok ""
  , complete := fun _ => .ok "" }

/-- A provider environment in which changes exist and context building
succeeds, but the completion capability throws. -/
def envAIFail : ProviderEnv :=
  { gather := fun staged =>
      if staged then .ok [{ filePath := "/w/a.ts", status := "Modified" }] else .ok []
  , buildContext := fun _ _ => .ok "CTX"
  , complete := fun _ => .error "AI API error" }

/-! ## General helper lemmas -/

/-- A string built as `x ++ pat ++ y` contains `pat`. -/
theorem hasSubstr_of_decomp (s pat x y : String) (h : s = x ++ pat ++ y) :
    HasSubstr s pat := by
  subst h
  exact ⟨x.data, y.data, by simp [String.data_append]⟩

/-- Containment is preserved when text is appended on the left. -/
theorem hasSubstr_append_left (a b pat : String) (h : HasSubstr b pat) :
    HasSubstr (a ++ b) pat := by
  rcases h with ⟨x, y, hxy⟩
  exact ⟨a.data ++ x, y, by simp [String.data_append, ← hxy, List.append_assoc]⟩

/-- Containment is preserved when text is appended on the right. -/
theorem hasSubstr_append_right (a b pat : String) (h : HasSubstr a pat) :
    HasSubstr (a ++ b) pat := by
  rcases h with ⟨x, y, hxy⟩
  exact ⟨x, y ++ b.data, by simp [String.data_append, ← hxy, List.append_assoc]⟩

/-- Lemma that `pathRelative` undoes `pathJoin`, as in the evaluator call of
`getDiffForChanges`. -/
theorem pathRelative_pathJoin (root f : String) :
    pathRelative root (pathJoin root f) = f := by
  unfold pathRelative pathJoin
  have hdata : (root ++ "/" ++ f).data = (root ++ "/").data ++ f.data := by
    simp [String.data_append]
  have hp : (root ++ "/").data.isPrefixOf (root ++ "/" ++ f).data = true := by
    rw [hdata]; simp [List.isPrefixOf_iff_prefix]
  rw [hdata] at hp
  simp only [hp, if_pos, hdata, List.drop_left]

/-! ## Claim C9: workspace-root binding invariant -/

/-- C9: a git-service instance is bound to one workspace root (a kept
instance is returned unchanged; a fresh instance is bound to the
requested root); when the requested workspace path differs from the bound
one, the old instance is disposed before the new one is created, and when
it does not differ, nothing happens. -/
theorem workspace_root_binding (st : SvcState) (path : String) :
    (st.currentWorkspaceRoot = some path → ensureGitService st path = (st, []))
    ∧ (st.currentWorkspaceRoot ≠ some path → ∀ s, st.gitService = some s →
        ensureGitService st path
          = ({ currentWorkspaceRoot := some path,
               gitService := some { workspaceRoot := path } },
             [SvcEvent.disposed s.workspaceRoot, SvcEvent.created path]))
    ∧ (st.currentWorkspaceRoot ≠ some path → st.gitService = none →
        ensureGitService st path
          = ({ currentWorkspaceRoot := some path,
               gitService := some { workspaceRoot := path } },
             [SvcEvent.created path]))
    ∧ ((ensureGitService st path).1.gitService = st.gitService
       ∨ (ensureGitService st path).1.gitService = some { workspaceRoot := path }) := by
  refine ⟨?_, ?_, ?_, ?_⟩
  · intro h
    simp [ensureGitService, h]
  · intro h s hs
    simp [ensureGitService, h, hs]
  · intro h hs
    simp [ensureGitService, h, hs]
  · by_cases h : st.currentWorkspaceRoot = some path
    · left; simp [ensureGitService, h]
    · right; simp [ensureGitService, h]

/-- C9 witness: switching from root `/a` (with a live service) to `/b`
disposes the old instance, then creates one bound to `/b`. -/
theorem workspace_root_binding_witness :
    ensureGitService
        { currentWorkspaceRoot := some "/a",
          gitService := some { workspaceRoot := "/a" } } "/b"
      = ({ currentWorkspaceRoot := some "/b",
           gitService := some { workspaceRoot := "/b" } },
         [SvcEvent.disposed "/a", SvcEvent.created "/b"]) :=
  (workspace_root_binding
      { currentWorkspaceRoot := some "/a", gitService := some { workspaceRoot := "/a" } }
      "/b").2.1 (by decide) { workspaceRoot := "/a" } rfl

/-! ## Claim C2: staged-to-unstaged fallback -/

/-- C2: change gathering is first invoked with `staged := true`; exactly
one further call with `staged := false` happens if and only if the first
call returned an empty list (an error never triggers the retry); and when
both calls return empty lists the programmatic workflow resolves to the
fixed no-changes result instead of raising. -/
theorem staged_fallback_policy (env : ProviderEnv) :
    ((gatherGitChangesT env).2.head? = some true)
    ∧ ((gatherGitChangesT env).2 = [true, false] ↔ env.gather true = .ok [])
    ∧ ((gatherGitChangesT env).2 = [true] ↔ env.gather true ≠ .ok [])
    ∧ (∀ st t ci, env.gather true = .ok [] → env.gather false = .ok [] →
        generateCommitMessageForExternal env st t ci
          = ({ message := "", error := some "No changes found to generate commit message" },
             st)) := by
  refine ⟨?_, ?_, ?_, ?_⟩
  · rcases h : env.gather true with e | changes
    · simp [gatherGitChangesT, h]
    · by_cases hc : changes.isEmpty
      · rcases hf : env.gather false with e2 | changes2 <;>
          simp [gatherGitChangesT, h, hc, hf]
      · simp [gatherGitChangesT, h, hc]
  · rcases h : env.gather true with e | changes
    · simp [gatherGitChangesT, h]
    · by_cases hc : changes.isEmpty
      · have hnil : changes = [] := List.isEmpty_iff.mp hc
        subst hnil
        rcases hf : env.gather false with e2 | changes2 <;>
          simp [gatherGitChangesT, h, hf, List.isEmpty_nil]
      · have hne : changes ≠ [] := fun hn => hc (by simp [hn])
        simp [gatherGitChangesT, h, hc, hne]
  · rcases h : env.gather true with e | changes
    · simp [gatherGitChangesT, h]
    · by_cases hc : changes.isEmpty
      · have hnil : changes = [] := List.isEmpty_iff.mp hc
        subst hnil
        rcases hf : env.gather false with e2 | changes2 <;>
          simp [gatherGitChangesT, h, hf, List.isEmpty_nil]
      · have hne : changes ≠ [] := fun hn => hc (by simp [hn])
        simp [gatherGitChangesT, h, hc, hne]
  · intro st t ci h1 h2
    simp [generateCommitMessageForExternal, gatherGitChangesT, h1, h2, List.isEmpty_nil]

/-- C2 witness: with both gather calls returning empty lists, the first
call is staged, the fallback happens, and the programmatic workflow
returns the fixed no-changes result. -/
theorem staged_fallback_policy_witness :
    (gatherGitChangesT envNoChanges).2.head? = some true
    ∧ (gatherGitChangesT envNoChanges).2 = [true, false]
    ∧ generateCommitMessageForExternal envNoChanges
        { previousGitContext := none, previousCommitMessage := none } [] ""
        = ({ message := "", error := some "No changes found to generate commit message" },
           { previousGitContext := none, previousCommitMessage := none }) :=
  ⟨(staged_fallback_policy envNoChanges).1,
   (staged_fallback_policy envNoChanges).2.1.mpr rfl,
   (staged_fallback_policy envNoChanges).2.2.2
     { previousGitContext := none, previousCommitMessage := none } [] "" rfl rfl⟩

/-! ## Claim C10: previous-run state updated only on success -/

/-- C10: in both workflow variants, a run that ends in an error leaves the
stored previous-context/previous-message fields untouched, and the fields
change only when the completion capability returned a message (which is
then the stored previous message). -/
theorem previous_state_only_on_success (env : ProviderEnv) (st : SessionState)
    (t : Template) (ci : String) :
    ((generateCommitMessageForExternal env st t ci).1.error.isSome →
       (generateCommitMessageForExternal env st t ci).2 = st)
    ∧ ((generateCommitMessageForExternal env st t ci).2 ≠ st →
       (generateCommitMessageForExternal env st t ci).1.error = none
       ∧ (generateCommitMessageForExternal env st t ci).2.previousCommitMessage
           = some (generateCommitMessageForExternal env st t ci).1.message)
    ∧ ((generateCommitMessageVsCode env st t ci).1.errorShown.isSome →
       (generateCommitMessageVsCode env st t ci).2 = st)
    ∧ ((generateCommitMessageVsCode env st t ci).2 ≠ st →
       ∃ m, (generateCommitMessageVsCode env st t ci).1.delivered = some m
         ∧ (generateCommitMessageVsCode env st t ci).2.previousCommitMessage = some m) := by
  unfold generateCommitMessageForExternal generateCommitMessageVsCode
  rcases hg : (gatherGitChangesT env).1 with e | ⟨changes, staged⟩
  · simp
  · by_cases hc : changes.isEmpty
    · simp [hc]
    · simp only [hc]
      rcases hb : env.buildContext changes staged with e | ctx
      · simp
      · rcases hai : callAIForCommitMessage env st t ci ctx with e | msg
        · simp [hai]
        · simp [hai]

/-- C10 witness: a run in which the completion capability throws
("AI API error") leaves the stored previous-run fields unchanged. -/
theorem previous_state_only_on_success_witness :
    (generateCommitMessageForExternal envAIFail
        { previousGitContext := some "old-context", previousCommitMessage := some "old-message" }
        [] "").2
      = { previousGitContext := some "old-context", previousCommitMessage := some "old-message" } :=
  (previous_state_only_on_success envAIFail
      { previousGitContext := some "old-context", previousCommitMessage := some "old-message" }
      [] "").1 (by decide)

/-! ## Claim C1: differ-on-repeat prompt augmentation -/

/-- Rendering distributes over template concatenation. -/
theorem renderTemplate_append (t1 t2 : Template) (g c : String) :
    renderTemplate (t1 ++ t2) g c = renderTemplate t1 g c ++ renderTemplate t2 g c := by
  induction t1 with
  | nil =>
    apply String.ext
    simp [renderTemplate, String.data_append]
  | cons p t ih =>
    calc renderTemplate ((p :: t) ++ t2) g c
        = (match p with
           | PromptPiece.lit s => s
           | PromptPiece.gitContext => g
           | PromptPiece.customInstructions => c) ++ renderTemplate (t ++ t2) g c := rfl
      _ = (match p with
           | PromptPiece.lit s => s
           | PromptPiece.gitContext => g
           | PromptPiece.customInstructions => c)
            ++ (renderTemplate t g c ++ renderTemplate t2 g c) := by rw [ih]
      _ = ((match p with
           | PromptPiece.lit s => s
           | PromptPiece.gitContext => g
           | PromptPiece.customInstructions => c)
            ++ renderTemplate t g c) ++ renderTemplate t2 g c :=
          (String.append_assoc _ _ _).symm
      _ = renderTemplate (p :: t) g c ++ renderTemplate t2 g c := rfl

/-- Rendering a one-literal template yields the literal. -/
theorem renderTemplate_lit (s g c : String) :
    renderTemplate [PromptPiece.lit s] g c = s := by
  apply String.ext
  simp [renderTemplate, String.data_append]

/-- C1: when the new context document equals the stored previous one and a
previous message exists, the built prompt is the rendered base template
wrapped in the differ directive and the trailing reminder, each of which
embeds the previous message verbatim; otherwise the unmodified base
prompt is used. -/
theorem commit_prompt_differ_on_repeat (st : SessionState) (t : Template)
    (gitCtx ci : String) :
    (∀ prev, st.previousGitContext = some gitCtx → st.previousCommitMessage = some prev →
       buildCommitMessagePrompt st t gitCtx ci
         = differDirective prev ++ renderTemplate t gitCtx ci ++ differReminder prev
       ∧ HasSubstr (differDirective prev) prev
       ∧ HasSubstr (differReminder prev) prev)
    ∧ (st.previousGitContext ≠ some gitCtx ∨ st.previousCommitMessage = none →
       buildCommitMessagePrompt st t gitCtx ci = renderTemplate t gitCtx ci) := by
  constructor
  · intro prev h1 h2
    refine ⟨?_, ?_, ?_⟩
    · unfold buildCommitMessagePrompt
      rw [h1, h2]
      simp only [if_pos rfl]
      rw [show PromptPiece.lit (differDirective prev) :: t ++ [PromptPiece.lit (differReminder prev)]
            = [PromptPiece.lit (differDirective prev)] ++ t ++ [PromptPiece.lit (differReminder prev)] from rfl,
          renderTemplate_append, renderTemplate_append, renderTemplate_lit, renderTemplate_lit]
      simp
    · exact hasSubstr_of_decomp _ _
        "# CRITICAL INSTRUCTION: GENERATE A COMPLETELY DIFFERENT COMMIT MESSAGE\nThe user has requested a new commit message for the same changes.\nThe previous message was: \""
        ("\"\nYOU MUST create a message that is COMPLETELY DIFFERENT by:\n- Using entirely different wording and phrasing\n- Focusing on different aspects of the changes\n- Using a different structure or format if appropriate\n- Possibly using a different type or scope if justifiable\nThis is the MOST IMPORTANT requirement for this task.\n\n")
        rfl
    · exact hasSubstr_of_decomp _ _
        "\n\nFINAL REMINDER: Your message MUST be COMPLETELY DIFFERENT from the previous message: \""
        "\". This is a critical requirement." rfl
  · intro h
    rcases h with h | h
    · unfold buildCommitMessagePrompt
      simp [h]
    · unfold buildCommitMessagePrompt
      rw [h]
      split <;> rfl

/-- C1 witness: with a stored previous message and an identical context
document, the built prompt is the wrapped base prompt (and therefore
embeds the previous message in both the directive and the reminder). -/
theorem commit_prompt_differ_on_repeat_witness :
    buildCommitMessagePrompt
        { previousGitContext := some "CTX", previousCommitMessage := some "feat: add parser" }
        [PromptPiece.lit "base ", PromptPiece.gitContext] "CTX" ""
      = differDirective "feat: add parser"
          ++ renderTemplate [PromptPiece.lit "base ", PromptPiece.gitContext] "CTX" ""
          ++ differReminder "feat: add parser"
    ∧ HasSubstr (differDirective "feat: add parser") "feat: add parser"
    ∧ HasSubstr (differReminder "feat: add parser") "feat: add parser" :=
  (commit_prompt_differ_on_repeat
      { previousGitContext := some "CTX", previousCommitMessage := some "feat: add parser" }
      [PromptPiece.lit "base ", PromptPiece.gitContext] "CTX" "").1
    "feat: add parser" rfl rfl

/-! ## Claim C8: fail-open access filtering -/

/-- C8: when the ignore-rule evaluator throws for a file, the file is
treated as allowed, and (unless it is a lockfile) its diff is still
gathered and prepended to the diffs of the remaining files — the
evaluator exception neither drops the file nor fails the build. -/
theorem ignore_filter_fail_open (env : GitEnv) (workspaceRoot : String) (staged : Bool)
    (f e d : String)
    (hv : env.validateAccess f = .error e)
    (hl : shouldExcludeLockFile f = false)
    (hd : env.runGit (diffFileArgs staged f) = .ok d) :
    fileAllowed env workspaceRoot f = true
    ∧ ∀ fs rest, collectDiffs env workspaceRoot staged fs = .ok rest →
        collectDiffs env workspaceRoot staged (f :: fs) = .ok (strTrim d :: rest) := by
  have hall : fileAllowed env workspaceRoot f = true := by
    unfold fileAllowed
    rw [pathRelative_pathJoin, hv]
  refine ⟨hall, ?_⟩
  intro fs rest hrest
  simp [collectDiffs, hall, hl, hd, hrest]

/-- C8 witness: an evaluator that always throws still lets the file
through, and its diff is gathered. -/
theorem ignore_filter_fail_open_witness :
    fileAllowed envEvalThrows "/w" "a.ts" = true
    ∧ collectDiffs envEvalThrows "/w" true ["a.ts"] = .ok [strTrim " D8 "] := by
  have h := ignore_filter_fail_open envEvalThrows "/w" true "a.ts" "evaluator boom" " D8 "
    rfl (by decide) rfl
  exact ⟨h.1, h.2 [] [] rfl⟩

/-! ## Claim C4: status parsing postcondition -/

/-- The status-line loop, characterised: every line shorter than two
characters is skipped, and every remaining line yields exactly one
`GitChange` built from the mapped first character and the joined trimmed
remainder. -/
theorem parseStatusLines_eq (workspaceRoot : String) (ls : List String) :
    parseStatusLines workspaceRoot ls
      = (ls.filter (fun l => !decide (l.length < 2))).map
          (fun l =>
            { filePath := pathJoin workspaceRoot (strTrim (String.mk (l.data.drop 1))),
              status := getChangeStatusFromCode (strTrim (String.mk (l.data.take 1))) }) := by
  induction ls with
  | nil => rfl
  | cons l rest ih =>
    by_cases h : l.length < 2 <;> simp [parseStatusLines, h, ih]

/-- C4: for every status output, `gatherChanges` returns one `GitChange`
per non-blank line of length at least two — the status being the trimmed
first character mapped through the fixed table and the file path being
the workspace root joined with the trimmed remainder — and skips all
shorter lines. -/
theorem status_parse_postcondition (env : GitEnv) (workspaceRoot : String)
    (staged : Bool) (out : String)
    (h : env.runGit (nameStatusArgs staged) = .ok out) :
    (strTrim out = "" → gatherChanges env workspaceRoot staged = [])
    ∧ (strTrim out ≠ "" →
       gatherChanges env workspaceRoot staged
         = ((((splitNewlines out).filter (fun l => strTrim l ≠ "")).filter
               (fun l => !decide (l.length < 2))).map
             (fun l =>
               { filePath := pathJoin workspaceRoot (strTrim (String.mk (l.data.drop 1))),
                 status := getChangeStatusFromCode (strTrim (String.mk (l.data.take 1))) }))) := by
  constructor
  · intro hblank
    unfold gatherChanges
    rw [h]
    simp [hblank]
  · intro hnonblank
    unfold gatherChanges
    rw [h]
    simp [hnonblank, parseStatusLines_eq]

/-- C4 witness: the sample status output `"M a.ts\nX\n \n? b.txt"` yields
a `Modified` change for `a.ts` and an `Untracked` change for `b.txt`,
skipping the one-character line `"X"` and the blank line. -/
theorem status_parse_postcondition_witness :
    gatherChanges envStatusSample "/w" true
      = [{ filePath := "/w/a.ts", status := "Modified" },
         { filePath := "/w/b.txt", status := "Untracked" }] :=
  ((status_parse_postcondition envStatusSample "/w" true "M a.ts\nX\n \n? b.txt" rfl).2
      (by decide)).trans (by decide)

/-! ## Claim C3: context building degrades per section -/

/-- The diff section always carries its heading. -/
theorem diffSection_heading (env : GitEnv) (workspaceRoot : String) (staged : Bool) :
    HasSubstr (diffSection env workspaceRoot staged) "### Full Diff of" := by
  have h0 : HasSubstr "### Full Diff of " "### Full Diff of" := by decide
  unfold diffSection
  exact hasSubstr_append_right _ _ _ (hasSubstr_append_right _ _ _
    (hasSubstr_append_right _ _ _ (hasSubstr_append_right _ _ _ h0)))

/-- The statistical-summary section always carries its heading. -/
theorem summarySection_heading (env : GitEnv) (staged : Bool) :
    HasSubstr (summarySection env staged) "### Statistical Summary" := by
  have h0 : HasSubstr "### Statistical Summary\n```\n" "### Statistical Summary" := by decide
  have h1 : HasSubstr "### Statistical Summary\n```\n(No summary available)\n```\n\n"
      "### Statistical Summary" := by decide
  unfold summarySection
  rcases h : env.runGit (statArgs staged) with e | summary
  · exact h1
  · exact hasSubstr_append_right _ _ _ (hasSubstr_append_right _ _ _ h0)

set_option maxRecDepth 20000 in
/-- C3 counterexample: when every adapter call throws, the built context
document does not contain four placeholder sections — the diff section
carries an empty body rather than a placeholder, and the current-branch
and recent-commits sections are omitted entirely (only the statistical
summary gets a placeholder). -/
theorem context_placeholder_counterexample :
    getCommitContext envAllFail "/w" true
      = "## Git Context for Commit Message Generation\n\n### Full Diff of Staged Changes\n```diff\n\n```\n\n### Statistical Summary\n```\n(No summary available)\n```\n\n### Repository Context\n\n"
    ∧ ¬ HasSubstr (getCommitContext envAllFail "/w" true) "(No diff available)"
    ∧ ¬ HasSubstr (getCommitContext envAllFail "/w" true) "Current branch"
    ∧ ¬ HasSubstr (getCommitContext envAllFail "/w" true) "Recent commits" := by
  refine ⟨by decide, by decide, by decide, by decide⟩

set_option maxRecDepth 20000 in
/-- C3 as amended: context building is total and degrades per section —
every built document contains the three fixed section headings whatever
the adapter does, and when every adapter call throws the result is the
fixed document with an empty diff block, the summary placeholder, and the
branch and recent-commits entries omitted. -/
theorem context_build_degrades :
    (∀ workspaceRoot staged,
       getCommitContext envAllFail workspaceRoot staged
         = "## Git Context for Commit Message Generation\n\n### Full Diff of "
             ++ (if staged then "Staged" else "Unstaged")
             ++ " Changes\n```diff\n\n```\n\n### Statistical Summary\n```\n(No summary available)\n```\n\n### Repository Context\n\n")
    ∧ (∀ env workspaceRoot staged,
       HasSubstr (getCommitContext env workspaceRoot staged) "### Full Diff of"
       ∧ HasSubstr (getCommitContext env workspaceRoot staged) "### Statistical Summary"
       ∧ HasSubstr (getCommitContext env workspaceRoot staged) "### Repository Context") := by
  constructor
  · intro workspaceRoot staged
    cases staged <;>
      simp [getCommitContext, diffSection, summarySection, branchSection, commitsSection,
        getDiffForChanges, envAllFail]
  · intro env workspaceRoot staged
    have hrepo : HasSubstr "### Repository Context\n\n" "### Repository Context" := by decide
    unfold getCommitContext
    refine ⟨?_, ?_, ?_⟩
    · exact hasSubstr_append_right _ _ _ (hasSubstr_append_right _ _ _
        (hasSubstr_append_right _ _ _ (hasSubstr_append_right _ _ _
          (hasSubstr_append_left _ _ _ (diffSection_heading env workspaceRoot staged)))))
    · exact hasSubstr_append_right _ _ _ (hasSubstr_append_right _ _ _
        (hasSubstr_append_right _ _ _
          (hasSubstr_append_left _ _ _ (summarySection_heading env staged))))
    · exact hasSubstr_append_right _ _ _ (hasSubstr_append_right _ _ _
        (hasSubstr_append_left _ _ _ hrepo))

/-! ## Claim C5: single-file diff failure handling -/

/-- C5 counterexample: with two changed files where only the diff
command of the second file exits non-zero, the assembled diff section is
the empty string — the successfully fetched diff of the first file is
*not* included, contradicting per-file isolation. -/
theorem single_file_diff_counterexample :
    getDiffForChanges envOneDiffFails "/w" true = ""
    ∧ ¬ HasSubstr (getDiffForChanges envOneDiffFails "/w" true) "diff-of-a" := by
  refine ⟨by decide, by decide⟩

/-- C5 as amended: a non-zero exit of one single-file diff command throws
out of the file loop (dropping the diffs of all files of that build), and
the surrounding catch converts the whole diff section to the empty
string; no exception escapes. -/
theorem single_file_diff_aborts_section (env : GitEnv) (workspaceRoot : String)
    (staged : Bool) :
    (∀ f fs e, fileAllowed env workspaceRoot f = true → shouldExcludeLockFile f = false →
       env.runGit (diffFileArgs staged f) = .error e →
       collectDiffs env workspaceRoot staged (f :: fs) = .error e)
    ∧ (∀ out e, env.runGit (nameOnlyArgs staged) = .ok out →
       collectDiffs env workspaceRoot staged (diffFileList out) = .error e →
       getDiffForChanges env workspaceRoot staged = "") := by
  constructor
  · intro f fs e hall hl hd
    simp [collectDiffs, hall, hl, hd]
  · intro out e hout herr
    simp [getDiffForChanges, hout, herr]

/-- C5 amended-claim witness: in the two-file environment the failing
second file aborts the loop with its error, and the assembled diff
section is empty. -/
theorem single_file_diff_aborts_section_witness :
    collectDiffs envOneDiffFails "/w" true ["b.ts"] = .error "git exited 1"
    ∧ getDiffForChanges envOneDiffFails "/w" true = "" :=
  ⟨(single_file_diff_aborts_section envOneDiffFails "/w" true).1 "b.ts" [] "git exited 1"
      (by decide) (by decide) rfl,
   (single_file_diff_aborts_section envOneDiffFails "/w" true).2 "a.ts\nb.ts" "git exited 1"
      rfl rfl⟩

/-! ## Claims C6 and C7: message post-processing -/

/-- Consuming a language tag and newline never lengthens the rest. -/
theorem afterFence_length (l : List Char) : (afterFence l).length ≤ l.length := by
  unfold afterFence
  have hd : (l.dropWhile (fun c => 'a' ≤ c && c ≤ 'z')).length ≤ l.length :=
    (List.dropWhile_suffix _).length_le
  simp only
  split
  · have := List.length_drop 1 (l.dropWhile (fun c => 'a' ≤ c && c ≤ 'z'))
    omega
  · exact le_refl _

/-- A pair prefix characterised by `take`. -/
theorem take_two_pair (l : List Char) (a b : Char) (h : l.take 2 = [a, b]) :
    ∃ t, l = a :: b :: t := by
  match l with
  | [] => simp [List.take] at h
  | [x] => simp [List.take] at h
  | x :: y :: t =>
    simp [List.take] at h
    exact ⟨t, by simp [h.1, h.2]⟩

/-- The fence remover cannot create a leading backtick. -/
theorem rcbmAux_head_btick (fuel : Nat) :
    ∀ l : List Char, (rcbmAux fuel l).head? = some btick → l.head? = some btick := by
  induction fuel with
  | zero => intro l h; simpa [rcbmAux] using h
  | succ fuel ih =>
    intro l h
    match l with
    | [] => simp [rcbmAux] at h
    | c :: rest =>
      by_cases h3 : c = btick ∧ rest.take 2 = [btick, btick]
      · simp [h3.1]
      · simp only [rcbmAux, if_neg h3, List.head?_cons] at h ⊢
        exact h

/-- The fence remover cannot create a leading double backtick. -/
theorem rcbmAux_two_btick (fuel : Nat) :
    ∀ l : List Char, [btick, btick] <+: rcbmAux fuel l → [btick, btick] <+: l := by
  induction fuel with
  | zero => intro l h; simpa [rcbmAux] using h
  | succ fuel ih =>
    intro l h
    match l with
    | [] => simp [rcbmAux] at h
    | c :: rest =>
      by_cases h3 : c = btick ∧ rest.take 2 = [btick, btick]
      · obtain ⟨t, ht⟩ := take_two_pair rest btick btick h3.2
        rw [h3.1, ht]
        exact (List.cons_prefix_cons).mpr ⟨rfl, (List.cons_prefix_cons).mpr ⟨rfl, List.nil_prefix⟩⟩
      · simp only [rcbmAux, if_neg h3] at h
        rcases (List.cons_prefix_cons).mp h with ⟨hc, hrest⟩
        have hhead : (rcbmAux fuel rest).head? = some btick := by
          rcases hrest with ⟨t, ht⟩
          rw [← ht]
          rfl
        have := rcbmAux_head_btick fuel rest hhead
        match rest, this with
        | b :: rest2, hb =>
          simp at hb
          rw [← hc, hb]
          exact (List.cons_prefix_cons).mpr ⟨rfl, (List.cons_prefix_cons).mpr ⟨rfl, List.nil_prefix⟩⟩

/-- Core invariant of the global fence-removing replace: its output never
contains three consecutive backticks. -/
theorem rcbmAux_noTriple (fuel : Nat) :
    ∀ l : List Char, l.length ≤ fuel → ¬ (tripleFence <:+: rcbmAux fuel l) := by
  induction fuel with
  | zero =>
    intro l hl h
    match l, hl with
    | [], _ =>
      have := h.length_le
      simp [rcbmAux, tripleFence] at this
  | succ fuel ih =>
    intro l hl h
    match l with
    | [] =>
      have := h.length_le
      simp [rcbmAux, tripleFence] at this
    | c :: rest =>
      by_cases h3 : c = btick ∧ rest.take 2 = [btick, btick]
      · have hfl : (afterFence (rest.drop 2)).length ≤ fuel := by
          have h1 := afterFence_length (rest.drop 2)
          have h2 := List.length_drop 2 rest
          simp at hl
          omega
        exact ih (afterFence (rest.drop 2)) hfl (by simpa [rcbmAux, if_pos h3] using h)
      · rw [show rcbmAux (fuel + 1) (c :: rest) = c :: rcbmAux fuel rest from by
            simp [rcbmAux, if_neg h3]] at h
        rcases List.infix_cons_iff.mp h with hpre | hinf
        · have : tripleFence = btick :: [btick, btick] := rfl
          rw [this] at hpre
          rcases (List.cons_prefix_cons).mp hpre with ⟨hc, hrest⟩
          have h2 := rcbmAux_two_btick fuel rest hrest
          rcases h2 with ⟨t, ht⟩
          exact h3 ⟨hc.symm, by rw [← ht]; rfl⟩
        · have hrl : rest.length ≤ fuel := by simp at hl; omega
          exact ih rest hrl hinf

/-- On fence-free input the fence remover is the identity. -/
theorem rcbmAux_id_of_noTriple (fuel : Nat) :
    ∀ l : List Char, ¬ (tripleFence <:+: l) → rcbmAux fuel l = l := by
  induction fuel with
  | zero => intro l _; rfl
  | succ fuel ih =>
    intro l hl
    match l with
    | [] => rfl
    | c :: rest =>
      by_cases h3 : c = btick ∧ rest.take 2 = [btick, btick]
      · exfalso
        obtain ⟨t, ht⟩ := take_two_pair rest btick btick h3.2
        apply hl
        rw [h3.1, ht]
        exact ((List.cons_prefix_cons).mpr ⟨rfl, (List.cons_prefix_cons).mpr
          ⟨rfl, (List.cons_prefix_cons).mpr ⟨rfl, List.nil_prefix⟩⟩⟩).isInfix
      · have hrest : ¬ (tripleFence <:+: rest) := by
          intro hr
          rcases hr with ⟨s, t, hst⟩
          exact hl ⟨c :: s, t, by simp [← hst]⟩
        simp [rcbmAux, if_neg h3, ih rest hrest]

/-- Stripping a leading quote yields a suffix. -/
theorem stripLeadingQuote_suffix (l : List Char) : stripLeadingQuote l <:+ l := by
  match l with
  | [] => exact List.suffix_refl _
  | c :: rest =>
    show (if isQuoteChar c then rest else c :: rest) <:+ c :: rest
    by_cases h : isQuoteChar c
    · rw [if_pos h]
      exact List.suffix_cons c rest
    · rw [if_neg h]

/-- Stripping a trailing quote yields a prefix. -/
theorem stripTrailingQuote_sublist (l : List Char) : stripTrailingQuote l <+: l := by
  unfold stripTrailingQuote
  have h := stripLeadingQuote_suffix l.reverse
  have h2 : ((stripLeadingQuote l.reverse).reverse).reverse <:+ l.reverse := by
    simpa using h
  exact List.reverse_suffix.mp h2

/-- Trimming yields a contiguous middle piece. -/
theorem jsTrim_sublist (l : List Char) : jsTrim l <:+: l := by
  unfold jsTrim
  have h1 : l.dropWhile isJsWs <:+ l := List.dropWhile_suffix _
  have h2 : (l.dropWhile isJsWs).reverse.dropWhile isJsWs <:+ (l.dropWhile isJsWs).reverse :=
    List.dropWhile_suffix _
  have h3 : ((l.dropWhile isJsWs).reverse.dropWhile isJsWs).reverse <+: l.dropWhile isJsWs := by
    apply List.reverse_suffix.mp
    simpa using h2
  exact h3.isInfix.trans h1.isInfix

/-- C6 as amended: `extractCommitMessage` removes every code-fence marker
occurrence — interior ones included — so its output never contains a
triple backtick, and a second fence-removal pass is the identity on it. -/
theorem extract_strips_all_fences (response : String) :
    ¬ (tripleFence <:+: (extractCommitMessage response).data)
    ∧ removeCodeBlockMarkers (extractCommitMessage response).data
        = (extractCommitMessage response).data := by
  have hmid : ¬ (tripleFence <:+: removeCodeBlockMarkers (jsTrim response.data)) :=
    rcbmAux_noTriple (jsTrim response.data).length (jsTrim response.data) (le_refl _)
  have hchain : (extractCommitMessage response).data
      <:+: removeCodeBlockMarkers (jsTrim response.data) := by
    unfold extractCommitMessage
    exact (jsTrim_sublist _).trans
      ((stripTrailingQuote_sublist _).isInfix.trans (stripLeadingQuote_suffix _).isInfix)
  have hout : ¬ (tripleFence <:+: (extractCommitMessage response).data) :=
    fun h => hmid (h.trans hchain)
  exact ⟨hout, rcbmAux_id_of_noTriple _ _ hout⟩

set_option maxRecDepth 20000 in
/-- C6 counterexample: a message whose triple-backtick markers are
interior (the message is not wrapped in code fences at all) still has
them stripped by the global replace — they are not left intact. -/
theorem interior_fence_counterexample :
    tripleFence <:+: ("Fix parser: handle ```code``` blocks" : String).data
    ∧ extractCommitMessage "Fix parser: handle ```code``` blocks"
        = "Fix parser: handle code blocks"
    ∧ ¬ (tripleFence <:+: (extractCommitMessage "Fix parser: handle ```code``` blocks").data) := by
  refine ⟨by decide, by decide, by decide⟩

/-- Stripping a leading quote from a list that does not start with one
changes nothing. -/
theorem stripLeadingQuote_eq_self (l : List Char) (h : headIsQuote l = false) :
    stripLeadingQuote l = l := by
  match l with
  | [] => rfl
  | c :: rest =>
    have hc : isQuoteChar c = false := by simpa [headIsQuote] using h
    show (if isQuoteChar c then rest else c :: rest) = c :: rest
    rw [hc]
    rfl

/-- On an already-clean message the whole extraction pipeline is the
identity. -/
theorem extract_eq_self_of_clean (m : String) (h : CleanMessage m) :
    extractCommitMessage m = m := by
  obtain ⟨h1, h2, h3, h4⟩ := h
  have hrc : removeCodeBlockMarkers m.data = m.data :=
    rcbmAux_id_of_noTriple m.data.length m.data h2
  have hlead : stripLeadingQuote m.data = m.data := stripLeadingQuote_eq_self m.data h3
  have htrail : stripTrailingQuote m.data = m.data := by
    unfold stripTrailingQuote
    rw [stripLeadingQuote_eq_self m.data.reverse h4, List.reverse_reverse]
  apply String.ext
  show jsTrim (stripTrailingQuote (stripLeadingQuote
    (removeCodeBlockMarkers (jsTrim m.data)))) = m.data
  rw [h1, hrc, hlead, htrail, h1]

/-- C7: applying `extractCommitMessage` twice to an already-clean message
(trimmed, fence-free, not starting or ending with a quote or backtick)
yields the same string as applying it once — interior quote characters
are not stripped on a repeat application. -/
theorem extract_idempotent_on_clean (m : String) (h : CleanMessage m) :
    extractCommitMessage (extractCommitMessage m) = extractCommitMessage m := by
  have he := extract_eq_self_of_clean m h
  rw [he, he]

/-- C7 witness: a clean message with interior quote characters is a fixed
point of double extraction. -/
theorem extract_idempotent_on_clean_witness :
    CleanMessage "fix: handle \"weird\" edge"
    ∧ extractCommitMessage (extractCommitMessage "fix: handle \"weird\" edge")
        = extractCommitMessage "fix: handle \"weird\" edge" :=
  ⟨by decide, extract_idempotent_on_clean "fix: handle \"weird\" edge" (by decide)⟩
